import Mathlib

/-!
Verification of the Dhan-Mantri expense-tracker repository.

We shallowly embed the logic of the React components
(`VoiceExpenseLogger.tsx`, `SubscriptionTracker.tsx`, `App.tsx` and the
unnamed `App` variant) and the SQL row-level-security policies into Lean,
and prove or refute the frozen claims about them.

Strings are handled at the level of `List Char`; substring containment
models JavaScript `String.prototype.includes`, and lower-casing models
`String.prototype.toLowerCase` (all keywords involved are ASCII).
-/

namespace DhanMantri

/-- `stripPre p s` returns `some rest` when `p` is a prefix of `s`,
modelling the anchored part of a JS substring / regex match. -/
def stripPre : List Char → List Char → Option (List Char)
  | [], s => some s
  | _ :: _, [] => none
  | p :: ps, c :: cs => if p = c then stripPre ps cs else none

/-- `listHas hay needle` models JS `hay.includes(needle)`:
`needle` occurs contiguously somewhere in `hay`. -/
def listHas (hay needle : List Char) : Bool :=
  match hay with
  | [] => (stripPre needle []).isSome
  | _ :: rest => (stripPre needle hay).isSome || listHas rest needle

/-- Lower-casing, modelling `String.prototype.toLowerCase` on the ASCII
text the components compare against. -/
def lowerList (s : String) : List Char := s.toList.map Char.toLower

/-- `kwIn msg kw` models `msg.toLowerCase().includes(kw)`, the keyword test
used throughout `handleSendMessage` in `VoiceExpenseLogger.tsx`. -/
def kwIn (msg kw : String) : Bool := listHas (lowerList msg) kw.toList

/-- The response branches of `handleSendMessage`
(`VoiceExpenseLogger.tsx`, lines 287-336). -/
inductive Branch where
  | help
  | addTx
  | balance
  | spendMonth
  | biggestExpense
  | budgetRec
  | datePicker
  | fallback
  deriving DecidableEq, Repr

/-- The branch-selection logic of `handleSendMessage`
(`VoiceExpenseLogger.tsx`, lines 289-336): the nested
`if / else if` chain over `lowerMessage.includes(...)` tests, translated
clause by clause. -/
def selectBranch (msg : String) : Branch :=
  if kwIn msg "help" then .help
  else if kwIn msg "add" || kwIn msg "spent" || kwIn msg "received" ||
      kwIn msg "earned" then .addTx
  else if kwIn msg "balance" then .balance
  else if kwIn msg "spend" && kwIn msg "month" then .spendMonth
  else if kwIn msg "biggest expense" || kwIn msg "top expense" then .biggestExpense
  else if kwIn msg "save" || kwIn msg "budget" || kwIn msg "recommendation" then .budgetRec
  else if kwIn msg "date" then .datePicker
  else .fallback

/-- The spec's description of the dispatcher: an ordered list of
(predicate, branch) pairs, tried in order. -/
def specPredicateList (msg : String) : List (Bool × Branch) :=
  [ (kwIn msg "help", .help),
    (kwIn msg "add" || kwIn msg "spent" || kwIn msg "received" ||
      kwIn msg "earned", .addTx),
    (kwIn msg "balance", .balance),
    (kwIn msg "spend" && kwIn msg "month", .spendMonth),
    (kwIn msg "biggest expense" || kwIn msg "top expense", .biggestExpense),
    (kwIn msg "save" || kwIn msg "budget" || kwIn msg "recommendation", .budgetRec),
    (kwIn msg "date", .datePicker) ]

/-- First-match-wins selection over an ordered predicate list; when no
predicate fires, the fallback branch is taken. -/
def firstMatch : List (Bool × Branch) → Branch
  | [] => .fallback
  | (b, br) :: rest => if b then br else firstMatch rest

/-- The spec-side dispatcher: first matching predicate wins. -/
def specSelectBranch (msg : String) : Branch :=
  firstMatch (specPredicateList msg)

/-! ### Transaction extraction (`processExpenseCommand`) -/

/-- Transaction kind, from `src/types` (`'income' | 'expense'`). -/
inductive TxType where
  | income
  | expense
  deriving DecidableEq, Repr

/-- The symbolic value of the date extracted by `processExpenseCommand`
(`VoiceExpenseLogger.tsx`, lines 193-224): the picker's selected date, the
current date shifted by an offset, or a month/day of the current year. -/
inductive ExtractedDate where
  | picker
  | rel (offset : Int)
  | monthDay (m : Nat) (d : Nat)
  deriving DecidableEq, Repr

/-- The relative date terms and their day offsets
(`VoiceExpenseLogger.tsx`, lines 195, 198-209): the loop breaks at the
first term of the list contained in the text. -/
def dateTerms : List (String × Int) :=
  [("yesterday", -1), ("today", 0), ("tomorrow", 1)]

/-- The relative-term pass of the date extraction: first term of
`dateTerms` contained in the (lower-cased) text wins; with no term the
date stays at the picker's selected date. -/
def termDate (t : List Char) : ExtractedDate :=
  match dateTerms.find? (fun p => listHas t p.1.toList) with
  | some p => .rel p.2
  | none => .picker

/-- The month-name list of `processExpenseCommand`
(`VoiceExpenseLogger.tsx`, line 196). -/
def monthNames : List String :=
  ["january", "february", "march", "april", "may", "june", "july",
   "august", "september", "october", "november", "december"]

/-- Month names paired with their 1-based month numbers. -/
def monthsIdx : List (Nat × String) :=
  monthNames.enum.map (fun p => (p.1 + 1, p.2))

/-- ASCII whitespace, modelling the regex class `\s` on the ASCII range. -/
def isWs (c : Char) : Bool :=
  c = ' ' || c = '\t' || c = '\n' || c = '\r' || c = '\x0b' || c = '\x0c'

/-- Numeric value of a decimal digit character. -/
def digitVal (c : Char) : Nat := c.toNat - '0'.toNat

/-- Matching the regex `month\s+(\d{1,2})` anchored at the head of `s`,
returning the parsed day (`parseInt(match[1])`). `\s+` and `\d{1,2}` are
greedy; since `\s` and `\d` are disjoint no backtracking can succeed, so
greedy whitespace skipping is exact. -/
def matchDayAt (monthKw : List Char) (s : List Char) : Option Nat :=
  match stripPre monthKw s with
  | none => none
  | some rest =>
    match rest with
    | [] => none
    | c :: cs =>
      if isWs c then
        match cs.dropWhile isWs with
        | [] => none
        | d1 :: ds =>
          if d1.isDigit then
            match ds with
            | d2 :: _ =>
              if d2.isDigit then some (10 * digitVal d1 + digitVal d2)
              else some (digitVal d1)
            | [] => some (digitVal d1)
          else none
      else none

/-- First match of `month\s+(\d{1,2})` in the text, scanning left to
right, modelling `text.toLowerCase().match(new RegExp(...))`
(`VoiceExpenseLogger.tsx`, lines 214-215). -/
def findMonthDay (monthKw : List Char) : List Char → Option Nat
  | [] => none
  | c :: rest =>
    match matchDayAt monthKw (c :: rest) with
    | some d => some d
    | none => findMonthDay monthKw rest

/-- Days in a calendar month (1-based), `leap` telling whether the year is
a leap year. This models the validation done by the date library's
`parse(..., 'MMMM d', new Date())` / `isValid` pair
(`VoiceExpenseLogger.tsx`, lines 218-219). -/
def monthLen (leap : Bool) : Nat → Nat
  | 1 => 31
  | 2 => if leap then 29 else 28
  | 3 => 31
  | 4 => 30
  | 5 => 31
  | 6 => 30
  | 7 => 31
  | 8 => 31
  | 9 => 30
  | 10 => 31
  | 11 => 30
  | 12 => 31
  | _ => 0

/-- One month's outcome in the month-name loop
(`VoiceExpenseLogger.tsx`, lines 212-224): the parsed `(month, day)` when
the regex matched and the day is valid for that month in the current
year, `none` otherwise. -/
def monthMatch (leap : Bool) (t : List Char) (im : Nat × String) :
    Option (Nat × Nat) :=
  match findMonthDay im.2.toList t with
  | some d =>
    if 1 ≤ d ∧ d ≤ monthLen leap im.1 then some (im.1, d) else none
  | none => none

/-- One iteration of the month-name loop: on a valid match the date
variable is overwritten, otherwise kept. The loop does not break, so
later months in the list overwrite earlier ones. -/
def monthStep (leap : Bool) (t : List Char) (acc : ExtractedDate)
    (im : Nat × String) : ExtractedDate :=
  match monthMatch leap t im with
  | some md => .monthDay md.1 md.2
  | none => acc

/-- The full date extraction of `processExpenseCommand`
(`VoiceExpenseLogger.tsx`, lines 193-224): start from the picker date,
run the relative-term loop (first match wins, with break), then run the
month-name loop over all twelve months without breaking. `leap` tells
whether the current year is a leap year. -/
def extractDate (leap : Bool) (text : String) : ExtractedDate :=
  let t := lowerList text
  monthsIdx.foldl (monthStep leap t) (termDate t)

/-- The amended specification of the date extraction: a valid
`<month name> <day>` pattern takes precedence over the relative terms,
and among matching months the last one in january..december order wins;
with no month match, the first contained relative term decides; otherwise
the picker date is used. -/
def extractDateSpecAmended (leap : Bool) (text : String) : ExtractedDate :=
  let t := lowerList text
  match monthsIdx.reverse.findSome? (monthMatch leap t) with
  | some md => .monthDay md.1 md.2
  | none => termDate t

/-- The expense category keyword list of `processExpenseCommand`
(`VoiceExpenseLogger.tsx`, line 181). -/
def expenseCategories : List String :=
  ["food", "transport", "utilities", "entertainment", "shopping",
   "groceries", "rent", "bills"]

/-- The income category keyword list of `processExpenseCommand`
(`VoiceExpenseLogger.tsx`, line 182). -/
def incomeCategories : List String :=
  ["salary", "freelance", "investment", "bonus", "gift"]

/-- The record produced by `processExpenseCommand`. -/
structure TxData where
  amount : ℚ
  type : TxType
  category : String
  date : ExtractedDate
  description : String
  deriving DecidableEq, Repr

/-- Embedding of `processExpenseCommand` (`VoiceExpenseLogger.tsx`,
lines 162-235). The amount comes from the external `compromise` NLP
library's `#Money` matcher followed by `parseFloat` (0 when no match),
and the description from the library's `splitAfter` calls; both are
outputs of that external library, so they enter as the parameters
`amount` and `descr`. Type, category and date are computed from the text
exactly as in the source. -/
def processExpenseCommand (leap : Bool) (amount : ℚ) (descr : String)
    (text : String) : TxData :=
  let t := lowerList text
  let type :=
    if listHas t "earned".toList || listHas t "received".toList ||
        listHas t "income".toList then TxType.income
    else TxType.expense
  let categories :=
    if type = TxType.income then incomeCategories else expenseCategories
  let category := ((categories.find? (fun c => listHas t c.toList)).getD "")
  { amount
    type
    category
    date := extractDate leap text
    description := descr }

/-! ### The fallback branch and `addTransaction` -/

/-- A transaction row as sent to the backend by `addTransaction`
(`VoiceExpenseLogger.tsx`, lines 254-257): the extracted data plus the
session user's id. -/
structure VoiceTxRow where
  amount : ℚ
  type : TxType
  category : String
  date : ExtractedDate
  description : String
  user_id : String
  deriving DecidableEq, Repr

/-- Outcome of `addTransaction` (`VoiceExpenseLogger.tsx`,
lines 237-270): no session, unusable data, a successful insert of a row,
or a failed insert. The insert is attempted exactly in the last two
cases. -/
inductive AddTxOutcome where
  | needLogin
  | cantUnderstand
  | inserted (row : VoiceTxRow)
  | insertFailed
  deriving DecidableEq, Repr

/-- Embedding of `addTransaction` (`VoiceExpenseLogger.tsx`,
lines 237-270). `insertFails` models the backend insert returning an
error. JS truthiness: `!data.amount` is true exactly when the amount is
0, and `!data.category` exactly when the category is the empty string. -/
def addTransaction (session : Option String) (insertFails : Bool)
    (d : TxData) : AddTxOutcome :=
  match session with
  | none => .needLogin
  | some uid =>
    if d.amount = 0 ∨ d.category = "" then .cantUnderstand
    else if insertFails then .insertFailed
    else .inserted ⟨d.amount, d.type, d.category, d.date, d.description, uid⟩

/-- Whether a given outcome of `addTransaction` involved an attempted
backend insert. -/
def addTxInsertAttempted : AddTxOutcome → Bool
  | .inserted _ => true
  | .insertFailed => true
  | _ => false

/-- Outcome of the final `else` branch of `handleSendMessage`
(`VoiceExpenseLogger.tsx`, lines 328-336): either the extracted data is
handed to `addTransaction`, or the static apology is returned. -/
inductive FallbackOutcome where
  | submitted (o : AddTxOutcome)
  | notSure
  deriving DecidableEq, Repr

/-- The static apology message of the fallback branch
(`VoiceExpenseLogger.tsx`, line 334). -/
def notSureMessage : String :=
  "I'm not sure what you're asking. Try asking about your balance, expenses, or budget recommendations. Or say 'help' to see what I can do."

/-- The decision of the fallback branch (`VoiceExpenseLogger.tsx`,
lines 330-335): submit exactly when the extracted amount is positive and
the extracted category is non-empty (JS: `amount > 0 && category`). -/
def fallbackHandle (session : Option String) (insertFails : Bool)
    (t : TxData) : FallbackOutcome :=
  if 0 < t.amount ∧ t.category ≠ "" then
    .submitted (addTransaction session insertFails t)
  else .notSure

/-- The static message the fallback branch produces when it does not
submit; `none` in the submit case (there the response comes from
`addTransaction`). -/
def fallbackStaticMessage : FallbackOutcome → Option String
  | .notSure => some notSureMessage
  | .submitted _ => none

/-- Whether the fallback branch of `handleSendMessage` ends in an
attempted backend insert (`VoiceExpenseLogger.tsx`, lines 328-336 with
237-270). -/
def fallbackInsertAttempted (session : Option String) (fails : Bool)
    (t : TxData) : Bool :=
  match fallbackHandle session fails t with
  | .submitted o => addTxInsertAttempted o
  | .notSure => false

/-! ### Calendar arithmetic

`SubscriptionTracker.tsx` manipulates billing dates with the date
library's `parseISO` / `addDays` / `format('yyyy-MM-dd')`. `addDays`
adds calendar days with exact month/year rollover, which for a
non-negative count is the iterated calendar successor. -/

/-- Gregorian leap-year rule. -/
def isLeap (y : Nat) : Bool :=
  (y % 4 == 0 && y % 100 != 0) || y % 400 == 0

/-- A calendar date `yyyy-MM-dd` as stored in the `billing_date` and
`date` columns. -/
structure CalDate where
  year : Nat
  month : Nat
  day : Nat
  deriving DecidableEq, Repr

/-- Length of month `m` (1-based) of year `y`. -/
def monthLength (y m : Nat) : Nat := monthLen (isLeap y) m

/-- A well-formed calendar date. -/
def ValidDate (dt : CalDate) : Prop :=
  1 ≤ dt.month ∧ dt.month ≤ 12 ∧ 1 ≤ dt.day ∧ dt.day ≤ monthLength dt.year dt.month

instance (dt : CalDate) : Decidable (ValidDate dt) := by
  unfold ValidDate
  infer_instance

/-- The calendar successor of a date, with month and year rollover. -/
def nextDay (dt : CalDate) : CalDate :=
  if dt.day < monthLength dt.year dt.month then ⟨dt.year, dt.month, dt.day + 1⟩
  else if dt.month < 12 then ⟨dt.year, dt.month + 1, 1⟩
  else ⟨dt.year + 1, 1, 1⟩

/-- `addDays n dt`: the date library's `addDays(dt, n)` for `n ≥ 0`,
i.e. the `n`-fold calendar successor. -/
def addDays (n : Nat) (dt : CalDate) : CalDate := nextDay^[n] dt

/-- The next billing date written by `handleMarkAsPaid`
(`SubscriptionTracker.tsx`, line 132):
`addDays(parseISO(subscription.billing_date), 30)`. -/
def markPaidNextBillingDate (billing : CalDate) : CalDate :=
  addDays 30 billing

/-- Total days of months `1..m` of a year with leap flag `leap`. -/
def daysUpToMonth (leap : Bool) : Nat → Nat
  | 0 => 0
  | m + 1 => daysUpToMonth leap m + monthLen leap (m + 1)

/-- Days in year `y`. -/
def daysInYear (y : Nat) : Nat := if isLeap y then 366 else 365

/-- Total days of all years before year `y`. -/
def daysBeforeYear : Nat → Nat
  | 0 => 0
  | y + 1 => daysBeforeYear y + daysInYear y

/-- A linear day count for calendar dates: the position of a date on the
day axis, used to state what "plus 30 days" means independently of the
calendar representation. -/
def dayNumber (dt : CalDate) : Nat :=
  daysBeforeYear dt.year + daysUpToMonth (isLeap dt.year) (dt.month - 1) + dt.day

/-! ### `SubscriptionTracker` -/

/-- A subscription row (`SubscriptionTracker.tsx`, lines 12-19). -/
structure Subscription where
  id : String
  name : String
  amount : ℚ
  billing_date : CalDate
  category : String
  user_id : String
  deriving DecidableEq, Repr

/-- The transaction row `handleMarkAsPaid` inserts
(`SubscriptionTracker.tsx`, lines 118-127). -/
structure SubTxRow where
  amount : ℚ
  type : TxType
  category : String
  description : String
  date : CalDate
  user_id : String
  deriving DecidableEq, Repr

/-- The backend calls issued by one run of `handleMarkAsPaid`:
`insertSent` is the transaction row passed to the insert (when one was
issued), `updateSent` the billing date passed to the subscription update
(when one was issued). -/
structure MarkPaidResult where
  insertSent : Option SubTxRow
  updateSent : Option CalDate
  deriving DecidableEq, Repr

/-- Embedding of `handleMarkAsPaid` (`SubscriptionTracker.tsx`,
lines 109-149): without a session nothing is issued; otherwise the
payment transaction is inserted first, and only if that insert did not
error (`insertFails = false`) is the subscription's billing date updated
to `addDays 30` of the stored one. `today` is the current day
(`new Date().toISOString().split('T')[0]`). -/
def handleMarkAsPaid (session : Option String) (insertFails : Bool)
    (today : CalDate) (sub : Subscription) : MarkPaidResult :=
  match session with
  | none => ⟨none, none⟩
  | some uid =>
    let row : SubTxRow :=
      ⟨sub.amount, .expense, sub.category,
        "Subscription payment for " ++ sub.name, today, uid⟩
    if insertFails then ⟨some row, none⟩
    else ⟨some row, some (markPaidNextBillingDate sub.billing_date)⟩

/-- The due-soon test of `getDueSoonSubscriptions`
(`SubscriptionTracker.tsx`, lines 151-159):
`isWithinInterval(billingDate, { start: startOfToday(), end: addWeeks(today, 1) })`,
an interval inclusive at both ends, here on the day axis. -/
def dueSoonPred (today : CalDate) (s : Subscription) : Bool :=
  dayNumber today ≤ dayNumber s.billing_date &&
    dayNumber s.billing_date ≤ dayNumber today + 7

/-- `getDueSoonSubscriptions` (`SubscriptionTracker.tsx`,
lines 151-159). -/
def getDueSoonSubscriptions (today : CalDate) (subs : List Subscription) :
    List Subscription :=
  subs.filter (dueSoonPred today)

/-- The main rendered list (`SubscriptionTracker.tsx`, lines 288-291):
`subscriptions.filter(sub => !dueSoonSubscriptions.includes(sub))`. -/
def mainListSubscriptions (today : CalDate) (subs : List Subscription) :
    List Subscription :=
  subs.filter (fun s => decide (s ∉ getDueSoonSubscriptions today subs))

/-! ### `analyzeTransactions` and the 50/30/20 budget amounts -/

/-- A transaction as the UI sees it (`src/types`). -/
structure Transaction where
  id : String
  amount : ℚ
  type : TxType
  category : String
  date : String
  description : String
  deriving DecidableEq, Repr

/-- `totalIncome` of `analyzeTransactions` (`VoiceExpenseLogger.tsx`,
lines 79-81): sum, via `reduce`, of the amounts of income-type
transactions. -/
def totalIncome (ts : List Transaction) : ℚ :=
  (ts.filter (fun t => decide (t.type = TxType.income))).foldl
    (fun sum t => sum + t.amount) 0

/-- `totalExpenses` of `analyzeTransactions` (`VoiceExpenseLogger.tsx`,
lines 83-85). -/
def totalExpenses (ts : List Transaction) : ℚ :=
  (ts.filter (fun t => decide (t.type = TxType.expense))).foldl
    (fun sum t => sum + t.amount) 0

/-- `balance` of `analyzeTransactions` (`VoiceExpenseLogger.tsx`,
line 87). -/
def balance (ts : List Transaction) : ℚ :=
  totalIncome ts - totalExpenses ts

/-- The three dollar amounts of the 50/30/20 recommendation. -/
structure BudgetAmounts where
  necessities : ℚ
  wants : ℚ
  savings : ℚ
  deriving DecidableEq, Repr

/-- The numeric core of `generateBudgetRecommendations`
(`VoiceExpenseLogger.tsx`, lines 117-131): `monthlyIncome` is
`analysis.totalIncome / 12` and the three amounts are `monthlyIncome`
times 0.5, 0.3 and 0.2. JS number arithmetic is modelled by exact
rationals. -/
def generateBudgetAmounts (ts : List Transaction) : BudgetAmounts :=
  let monthlyIncome := totalIncome ts / 12
  ⟨monthlyIncome * (1 / 2), monthlyIncome * (3 / 10), monthlyIncome * (1 / 5)⟩

/-- The spec's description of total income: the sum of the amounts of all
income-type transactions in the list. -/
def totalIncomeSpec (ts : List Transaction) : ℚ :=
  ((ts.filter (fun t => decide (t.type = TxType.income))).map
    (fun t => t.amount)).sum

/-! ### The root coordinator (`App.tsx` and the unnamed `App` variant) -/

/-- A row of the `transactions` table (unnamed migration `part_000`).
The `date` column is a SQL `date`; it is modelled as a day number, which
is what its ordering is. -/
structure TxRecord where
  id : String
  amount : ℚ
  type : TxType
  category : String
  date : Int
  description : String
  user_id : String
  deriving DecidableEq, Repr

/-- The fields submitted by the transaction form
(`App.tsx`, `handleTransactionSubmit`). -/
structure TxInput where
  amount : ℚ
  type : TxType
  category : String
  date : Int
  description : String
  deriving DecidableEq, Repr

/-- The backend's `transactions` table. -/
structure Backend where
  rows : List TxRecord
  deriving DecidableEq, Repr

/-- `fetchTransactions` (`App.tsx`, lines 90-103 and the same query in
`part_005`): select all rows with `user_id` equal to the session user's
id, ordered by `date` descending. -/
def fetchTransactions (uid : String) (db : Backend) : List TxRecord :=
  (db.rows.filter (fun r => decide (r.user_id = uid))).mergeSort
    (fun a b => decide (b.date ≤ a.date))

/-- A transaction mutation issued by the root coordinator: a confirmed
add (`handleTransactionConfirm`), an edit (`handleTransactionEdit`) or a
delete (`handleTransactionDelete`). For an add, `newId` stands for the
row id the database generates. -/
inductive Mutation where
  | add (newId : String) (d : TxInput)
  | edit (id : String) (d : TxInput)
  | del (id : String)
  deriving DecidableEq, Repr

/-- The effect of one mutation on the `transactions` table, with the
filters the application sends: inserts carry `user_id: session.user.id`;
updates and deletes are restricted by `.eq('id', id).eq('user_id',
session.user.id)` (`App.tsx`, lines 116-165). -/
def applyMutation (uid : String) (m : Mutation) (db : Backend) : Backend :=
  match m with
  | .add newId d =>
    ⟨db.rows ++ [⟨newId, d.amount, d.type, d.category, d.date, d.description, uid⟩]⟩
  | .edit id d =>
    ⟨db.rows.map (fun r =>
      if r.id = id ∧ r.user_id = uid then
        ⟨r.id, d.amount, d.type, d.category, d.date, d.description, uid⟩
      else r)⟩
  | .del id =>
    ⟨db.rows.filter (fun r => decide (¬ (r.id = id ∧ r.user_id = uid)))⟩

/-- The root coordinator's in-memory state relevant here. -/
structure AppState where
  transactions : List TxRecord
  deriving DecidableEq, Repr

/-- What one mutation handler run did: resulting in-memory state,
resulting table, number of `fetchTransactions` calls it made, and the
console-error log lines it emitted. -/
structure MutationOutcome where
  state : AppState
  db : Backend
  fetchCount : Nat
  logs : List String
  deriving DecidableEq, Repr

/-- The mutation handlers of `App.tsx` (lines 116-165): on a backend
error (`err = true`) the handler logs and returns, leaving state and
issuing no fetch; on success it applies the mutation and replaces the
in-memory list with a fresh `fetchTransactions` result. -/
def handleMutation (uid : String) (m : Mutation) (err : Bool)
    (st : AppState) (db : Backend) : MutationOutcome :=
  if err then ⟨st, db, 0, ["mutation error"]⟩
  else
    let db' := applyMutation uid m db
    ⟨⟨fetchTransactions uid db'⟩, db', 1, []⟩

/-- The auth-error test of `handleAuthError` in the unnamed `App` variant
(`part_005`): the error message contains `'JWT'`, `'token'` or
`'authentication'` (case-sensitive `includes`). -/
def isAuthErrorMsg (msg : String) : Bool :=
  listHas msg.toList "JWT".toList || listHas msg.toList "token".toList ||
    listHas msg.toList "authentication".toList

/-- The mutation handlers of the unnamed `App` variant (`part_005`,
lines 184-249): on success as in `App.tsx`; on an error whose message
looks auth-related, `handleAuthError` signs the user out, which resets
the in-memory transaction list to `[]` (`handleSignOut` and the
`SIGNED_OUT` listener); on any other error the handler logs and returns.
The second component tells whether the user was signed out. -/
def handleMutation005 (uid : String) (m : Mutation) (err : Option String)
    (st : AppState) (db : Backend) : MutationOutcome × Bool :=
  match err with
  | none =>
    let db' := applyMutation uid m db
    (⟨⟨fetchTransactions uid db'⟩, db', 1, []⟩, false)
  | some msg =>
    if isAuthErrorMsg msg then
      (⟨⟨[]⟩, db, 0, ["Authentication error"]⟩, true)
    else
      (⟨st, db, 0, ["mutation error"]⟩, false)

/-! ### Row-level security policies (unnamed migration `part_000`) -/

/-- SQL statement kinds covered by the policies. -/
inductive SqlOp where
  | select
  | insert
  | update
  | delete
  deriving DecidableEq, BEq, Repr

/-- One `CREATE POLICY ... ON transactions` declaration: the operation it
covers, its `USING` condition on the existing row and its `WITH CHECK`
condition on the new row (a missing clause is `true`). -/
structure Policy where
  pname : String
  op : SqlOp
  usingPred : String → TxRecord → Bool
  checkPred : String → TxRecord → Bool

/-- The four policies of the `transactions` table (unnamed migration
`part_000`): read / insert / update / delete each guarded by
`auth.uid() = user_id`. -/
def transactionsPolicies : List Policy :=
  [ ⟨"Users can read own transactions", .select,
      fun auth r => decide (auth = r.user_id), fun _ _ => true⟩,
    ⟨"Users can insert own transactions", .insert,
      fun _ _ => true, fun auth r => decide (auth = r.user_id)⟩,
    ⟨"Users can update own transactions", .update,
      fun auth r => decide (auth = r.user_id),
      fun auth r => decide (auth = r.user_id)⟩,
    ⟨"Users can delete own transactions", .delete,
      fun auth r => decide (auth = r.user_id), fun _ _ => true⟩ ]

/-- Permissive row-level security: an operation touching `oldRow` and
producing `newRow` is allowed when some policy for that operation passes
both its `USING` and `WITH CHECK` conditions (for select/delete,
`newRow = oldRow`; for insert, `oldRow = newRow` is the inserted row). -/
def rlsAllows (op : SqlOp) (auth : String) (oldRow newRow : TxRecord) : Bool :=
  transactionsPolicies.any
    (fun p => decide (p.op = op) && p.usingPred auth oldRow &&
      p.checkPred auth newRow)

/-! ### Concrete data for witnesses and counterexamples -/

/-- A concrete transaction row owned by user `u1`. -/
def cexRow : TxRecord := ⟨"t1", 5, .expense, "food", 0, "", "u1"⟩

/-- A concrete subscription owned by user `u1`, billed on year 4,
January 31 (year 4 is a leap year, so the 30-day advance crosses a
29-day February). -/
def subNetflix : Subscription :=
  ⟨"s1", "Netflix", 10, ⟨4, 1, 31⟩, "Streaming", "u1"⟩

/-- A concrete subscription billed on year 4, February 3. -/
def subSpotify : Subscription :=
  ⟨"s2", "Spotify", 5, ⟨4, 2, 3⟩, "Music", "u1"⟩

/-! ## Helper lemmas -/

/-- Folding an overwrite-on-match step over a list keeps the initial
value unless some element matches, in which case the last matching
element (first in the reversed list) determines the result. -/
theorem foldl_override {α γ : Type} {β : Type} (f : α → Option β) (out : β → γ) :
    ∀ (l : List α) (init : γ),
      l.foldl (fun acc x => (f x).elim acc out) init
        = (l.reverse.findSome? f).elim init out := by
  intro l
  induction l with
  | nil => intro init; rfl
  | cons a l ih =>
    intro init
    rw [List.foldl_cons, ih, List.reverse_cons, List.findSome?_append]
    cases h : l.reverse.findSome? f <;> cases h2 : f a <;>
      simp [Option.or, List.findSome?_cons, h2]

/-- Every month of the year has at least one day. -/
theorem monthLen_pos (leap : Bool) (m : Nat) (h1 : 1 ≤ m) (h2 : m ≤ 12) :
    1 ≤ monthLen leap m := by
  interval_cases m <;> cases leap <;> decide

/-- The calendar successor advances the day count by exactly one. -/
theorem dayNumber_nextDay (dt : CalDate) (h : ValidDate dt) :
    dayNumber (nextDay dt) = dayNumber dt + 1 := by
  obtain ⟨hm1, hm12, hd1, hdle⟩ := h
  unfold nextDay
  split
  · simp [dayNumber]
    omega
  · rename_i hlt
    have hd : dt.day = monthLength dt.year dt.month := by omega
    split
    · rename_i hm
      obtain ⟨m', hm'⟩ : ∃ m', dt.month = m' + 1 := ⟨dt.month - 1, by omega⟩
      have hstep : daysUpToMonth (isLeap dt.year) (m' + 1)
          = daysUpToMonth (isLeap dt.year) m' + monthLen (isLeap dt.year) (m' + 1) :=
        rfl
      have hdm : dt.day = monthLen (isLeap dt.year) (m' + 1) := by
        rw [hd, hm']; rfl
      simp [dayNumber, hm']
      omega
    · rename_i hm
      have h12 : dt.month = 12 := by omega
      have hy : daysInYear dt.year
          = daysUpToMonth (isLeap dt.year) 11 + monthLen (isLeap dt.year) 12 := by
        cases hl : isLeap dt.year <;> simp [daysInYear, hl] <;> decide
      have hd12 : dt.day = monthLen (isLeap dt.year) 12 := by
        rw [hd, h12]; rfl
      have h0 : daysUpToMonth (isLeap (dt.year + 1)) 0 = 0 := rfl
      simp [dayNumber, h12, daysBeforeYear]
      omega

/-- The calendar successor of a valid date is valid. -/
theorem validDate_nextDay (dt : CalDate) (h : ValidDate dt) :
    ValidDate (nextDay dt) := by
  obtain ⟨hm1, hm12, hd1, hdle⟩ := h
  unfold nextDay
  split
  · rename_i hlt
    refine ⟨hm1, hm12, ?_, ?_⟩
    · show 1 ≤ dt.day + 1
      omega
    · show dt.day + 1 ≤ monthLength dt.year dt.month
      omega
  · split
    · rename_i hm
      refine ⟨?_, ?_, ?_, ?_⟩
      · show 1 ≤ dt.month + 1
        omega
      · show dt.month + 1 ≤ 12
        omega
      · show (1 : Nat) ≤ 1
        omega
      · show 1 ≤ monthLength dt.year (dt.month + 1)
        exact monthLen_pos _ _ (by omega) (by omega)
    · refine ⟨?_, ?_, ?_, ?_⟩
      · show (1 : Nat) ≤ 1
        omega
      · show (1 : Nat) ≤ 12
        omega
      · show (1 : Nat) ≤ 1
        omega
      · show 1 ≤ monthLength (dt.year + 1) 1
        exact monthLen_pos _ _ (by omega) (by omega)

/-- `addDays n` preserves validity and advances the day count by exactly
`n`, for every starting date: this is what "plus n days, regardless of
calendar month length" means. -/
theorem addDays_spec (n : Nat) (dt : CalDate) (h : ValidDate dt) :
    ValidDate (addDays n dt) ∧ dayNumber (addDays n dt) = dayNumber dt + n := by
  induction n with
  | zero => exact ⟨h, rfl⟩
  | succ k ih =>
    have hs : addDays (k + 1) dt = nextDay (addDays k dt) :=
      Function.iterate_succ_apply' nextDay k dt
    refine ⟨?_, ?_⟩
    · rw [hs]; exact validDate_nextDay _ ih.1
    · rw [hs, dayNumber_nextDay _ ih.1, ih.2]; omega

/-- The `reduce`-style fold over amounts equals the initial value plus
the plain sum of the amounts. -/
theorem foldl_add_amount (l : List Transaction) :
    ∀ init : ℚ, l.foldl (fun sum t => sum + t.amount) init
      = init + (l.map (fun t => t.amount)).sum := by
  induction l with
  | nil => intro init; simp
  | cons t l ih => intro init; simp [List.foldl_cons, ih]; ring

/-- The row-level policies of the `transactions` table allow an
operation on a row exactly for the row's owner. -/
theorem rls_owner_iff (op : SqlOp) (auth : String) (r : TxRecord) :
    rlsAllows op auth r r = true ↔ auth = r.user_id := by
  cases op <;> simp [rlsAllows, transactionsPolicies]

/-- Every row returned by the application's transaction fetch belongs to
the session user. -/
theorem fetch_owner (uid : String) (db : Backend) (r : TxRecord)
    (h : r ∈ fetchTransactions uid db) : r.user_id = uid := by
  unfold fetchTransactions at h
  have h2 := List.mem_mergeSort.mp h
  have h3 := List.mem_filter.mp h2
  simpa using h3.2

/-- Mapping a function that either fixes an element or moves it between
two states the filter rejects leaves the filtered list unchanged. -/
theorem filter_map_invariant {α : Type} (p : α → Bool) (f : α → α)
    (hf : ∀ a, f a = a ∨ (p a = false ∧ p (f a) = false)) :
    ∀ l : List α, (l.map f).filter p = l.filter p := by
  intro l
  induction l with
  | nil => rfl
  | cons a l ih =>
    simp only [List.map_cons]
    rcases hf a with ha | ⟨ha1, ha2⟩
    · rw [ha]
      simp only [List.filter_cons]
      cases hp : p a <;> simp [ih]
    · simp [List.filter_cons, ha1, ha2, ih]

/-- No transaction mutation the application issues touches rows of any
other user: the rows owned by `v ≠ uid` are exactly the same before and
after. -/
theorem mutation_untouched (uid v : String) (m : Mutation) (db : Backend)
    (hv : v ≠ uid) :
    (applyMutation uid m db).rows.filter (fun r => decide (r.user_id = v))
      = db.rows.filter (fun r => decide (r.user_id = v)) := by
  cases m with
  | add newId d =>
    simp [applyMutation, List.filter_append, Ne.symm hv]
  | edit id d =>
    apply filter_map_invariant
    intro r
    by_cases hr : r.id = id ∧ r.user_id = uid
    · right
      constructor
      · simp [hr.2, Ne.symm hv]
      · simp [hr, Ne.symm hv]
    · left
      simp [hr]
  | del id =>
    show ((db.rows.filter _).filter _) = _
    rw [List.filter_filter]
    apply List.filter_congr
    intro r _
    by_cases hu : r.user_id = v
    · simp [hu]
      exact Or.inr hv
    · simp [hu]

/-! ## Claim theorems -/

/-- C1: `handleSendMessage` lower-cases the message and tests the fixed
ordered list of substring predicates — help; add/spent/received/earned;
balance; spend+month; biggest expense/top expense;
save/budget/recommendation; date — and the first matching predicate
determines the branch; in particular a message containing "help"
anywhere always takes the help branch. -/
theorem handleSendMessage_first_match (msg : String) :
    selectBranch msg = specSelectBranch msg ∧
    (kwIn msg "help" = true → selectBranch msg = .help) := by
  refine ⟨rfl, ?_⟩
  intro h
  unfold selectBranch
  simp [h]

/-- C1 witness: a message containing "help" and also the later keywords
"add" and "balance" still takes the help branch. -/
theorem handleSendMessage_first_match_witness :
    kwIn "Help me add my balance" "help" = true ∧
    selectBranch "Help me add my balance" = .help :=
  ⟨by decide, (handleSendMessage_first_match "Help me add my balance").2 (by decide)⟩

/-- C2: in the fallback branch, a backend insert is attempted exactly
when the extracted amount is positive and the extracted category is
non-empty; otherwise the branch returns the static "I'm not sure what
you're asking" message and attempts no insert. -/
theorem fallback_submit_iff (uid : String) (fails : Bool) (t : TxData) :
    (fallbackInsertAttempted (some uid) fails t = true ↔
      0 < t.amount ∧ t.category ≠ "") ∧
    (¬ (0 < t.amount ∧ t.category ≠ "") →
      fallbackHandle (some uid) fails t = .notSure ∧
      fallbackStaticMessage (fallbackHandle (some uid) fails t) =
        some notSureMessage) := by
  unfold fallbackInsertAttempted fallbackHandle addTransaction
  by_cases h : 0 < t.amount ∧ t.category ≠ ""
  · obtain ⟨ha, hc⟩ := h
    have h1 : ¬ t.amount = 0 := ne_of_gt ha
    simp [ha, hc, h1]
    cases fails <;> simp [addTxInsertAttempted]
  · simp [h, fallbackStaticMessage]

/-- C2 witness: "$20 for food" data is submitted and inserted; data with
amount 0 and empty category yields the static apology and no insert. -/
theorem fallback_submit_iff_witness :
    fallbackInsertAttempted (some "u1") false
      ⟨20, .expense, "food", .picker, ""⟩ = true ∧
    fallbackHandle (some "u1") false ⟨0, .expense, "", .picker, ""⟩ = .notSure :=
  ⟨(fallback_submit_iff "u1" false ⟨20, .expense, "food", .picker, ""⟩).1.mpr
      (by decide),
   ((fallback_submit_iff "u1" false ⟨0, .expense, "", .picker, ""⟩).2
      (by decide)).1⟩

/-- C3 counterexample: the text "Spent 200 on food yesterday march 10"
contains "yesterday", yet the extracted date is March 10 of the current
year, not the current date shifted by -1 days — the month/day pattern
overrides the relative term because the month loop runs after the term
loop and overwrites its result. -/
theorem extractDate_monthDay_overrides_relative :
    listHas (lowerList "Spent 200 on food yesterday march 10")
      "yesterday".toList = true ∧
    extractDate false "Spent 200 on food yesterday march 10"
      = .monthDay 3 10 ∧
    extractDate false "Spent 200 on food yesterday march 10" ≠ .rel (-1) := by
  refine ⟨by decide, by decide, by decide⟩

/-- C3 (amended): the extracted date is the date denoted by a
"<month name> <day>" pattern with a valid day when one is present (the
last matching month in january..december order winning), else the
current date shifted by -1/0/+1 when the text contains
yesterday/today/tomorrow (the first such term in that fixed order
winning), else the picker's selected date. -/
theorem extractDate_amended (leap : Bool) (text : String) :
    extractDate leap text = extractDateSpecAmended leap text := by
  have e : monthStep leap (lowerList text) =
      fun acc x => (monthMatch leap (lowerList text) x).elim acc
        (fun md => ExtractedDate.monthDay md.1 md.2) := by
    funext acc x
    unfold monthStep
    cases monthMatch leap (lowerList text) x <;> rfl
  show monthsIdx.foldl (monthStep leap (lowerList text))
      (termDate (lowerList text)) =
    match monthsIdx.reverse.findSome? (monthMatch leap (lowerList text)) with
    | some md => ExtractedDate.monthDay md.1 md.2
    | none => termDate (lowerList text)
  rw [e, foldl_override]
  cases h : monthsIdx.reverse.findSome? (monthMatch leap (lowerList text)) <;> rfl

/-- C4: marking a subscription as paid writes back exactly the stored
billing date advanced by 30 days on the day axis, whatever the month
lengths crossed. -/
theorem markAsPaid_advances_30_days (sub : Subscription) (uid : String)
    (today : CalDate) (h : ValidDate sub.billing_date) :
    (handleMarkAsPaid (some uid) false today sub).updateSent
      = some (markPaidNextBillingDate sub.billing_date) ∧
    dayNumber (markPaidNextBillingDate sub.billing_date)
      = dayNumber sub.billing_date + 30 ∧
    ValidDate (markPaidNextBillingDate sub.billing_date) := by
  refine ⟨rfl, ?_, ?_⟩
  · exact (addDays_spec 30 _ h).2
  · exact (addDays_spec 30 _ h).1

/-- C4 witness: the January 31 billing date of year 4 (a leap year)
advances by exactly 30 days across the 29-day February. -/
theorem markAsPaid_advances_30_days_witness :
    (handleMarkAsPaid (some "u1") false ⟨4, 2, 1⟩ subNetflix).updateSent
      = some (markPaidNextBillingDate subNetflix.billing_date) ∧
    dayNumber (markPaidNextBillingDate subNetflix.billing_date)
      = dayNumber subNetflix.billing_date + 30 ∧
    ValidDate (markPaidNextBillingDate subNetflix.billing_date) :=
  markAsPaid_advances_30_days subNetflix "u1" ⟨4, 2, 1⟩ (by decide)

/-- C5: the recommended necessities, wants and savings amounts are 50%,
30% and 20% of one-twelfth of the total income, total income being the
sum of the amounts of all income-type transactions. -/
theorem budget_recommendation_50_30_20 (ts : List Transaction) :
    (generateBudgetAmounts ts).necessities = totalIncomeSpec ts / 12 * (50 / 100) ∧
    (generateBudgetAmounts ts).wants = totalIncomeSpec ts / 12 * (30 / 100) ∧
    (generateBudgetAmounts ts).savings = totalIncomeSpec ts / 12 * (20 / 100) := by
  have h : totalIncome ts = totalIncomeSpec ts := by
    unfold totalIncome totalIncomeSpec
    rw [foldl_add_amount]
    ring
  unfold generateBudgetAmounts
  refine ⟨?_, ?_, ?_⟩ <;> simp [h] <;> ring_nf <;> norm_num

/-- C6: on a successful mutation (add, edit or delete), both coordinator
variants replace the in-memory transaction list with a fresh full fetch
of the mutated table for the session user — the result does not depend
on the previous in-memory list, so no incremental local update occurs. -/
theorem mutation_success_refetches (uid : String) (m : Mutation)
    (st st' : AppState) (db : Backend) :
    (handleMutation uid m false st db).state.transactions
      = fetchTransactions uid (applyMutation uid m db) ∧
    (handleMutation uid m false st db).fetchCount = 1 ∧
    (handleMutation uid m false st db).state
      = (handleMutation uid m false st' db).state ∧
    (handleMutation005 uid m none st db).1.state.transactions
      = fetchTransactions uid (applyMutation uid m db) ∧
    (handleMutation005 uid m none st db).1.fetchCount = 1 :=
  ⟨rfl, rfl, rfl, rfl, rfl⟩

/-- C7 counterexample: in the unnamed `App` variant, a delete whose
backend error message is "JWT expired" does not leave the in-memory
transaction list unchanged — the auth-error path signs the user out and
the list becomes empty. -/
theorem authError_clears_transactions :
    (handleMutation005 "u1" (.del "t1") (some "JWT expired")
        ⟨[cexRow]⟩ ⟨[cexRow]⟩).1.state.transactions = [] ∧
    ([] : List TxRecord) ≠ [cexRow] := by
  constructor
  · decide
  · decide

/-- C7 (amended): on a failed mutation the `App.tsx` handlers log and
return, leaving state, table and list untouched and issuing no fetch;
the unnamed `App` variant does the same unless the error message
contains "JWT", "token" or "authentication", in which case it signs the
user out and the in-memory transaction list is cleared (still with no
re-fetch). -/
theorem mutation_error_handling_amended (uid : String) (m : Mutation)
    (msg : String) (st : AppState) (db : Backend) :
    (handleMutation uid m true st db).state = st ∧
    (handleMutation uid m true st db).db = db ∧
    (handleMutation uid m true st db).fetchCount = 0 ∧
    (handleMutation uid m true st db).logs ≠ [] ∧
    (isAuthErrorMsg msg = false →
      (handleMutation005 uid m (some msg) st db).1.state = st ∧
      (handleMutation005 uid m (some msg) st db).1.db = db ∧
      (handleMutation005 uid m (some msg) st db).1.fetchCount = 0 ∧
      (handleMutation005 uid m (some msg) st db).2 = false) ∧
    (isAuthErrorMsg msg = true →
      (handleMutation005 uid m (some msg) st db).1.state.transactions = [] ∧
      (handleMutation005 uid m (some msg) st db).1.fetchCount = 0 ∧
      (handleMutation005 uid m (some msg) st db).2 = true) := by
  refine ⟨rfl, rfl, rfl, by simp [handleMutation], ?_, ?_⟩ <;>
    intro h <;> simp [handleMutation005, h]

/-- C7 witness: a non-auth error ("network down") on a delete leaves
the state untouched in both variants. -/
theorem mutation_error_handling_amended_witness :
    (handleMutation "u1" (.del "t1") true ⟨[cexRow]⟩ ⟨[cexRow]⟩).state
      = ⟨[cexRow]⟩ ∧
    (handleMutation005 "u1" (.del "t1") (some "network down")
        ⟨[cexRow]⟩ ⟨[cexRow]⟩).1.state = ⟨[cexRow]⟩ :=
  ⟨(mutation_error_handling_amended "u1" (.del "t1") "network down"
      ⟨[cexRow]⟩ ⟨[cexRow]⟩).1,
   ((mutation_error_handling_amended "u1" (.del "t1") "network down"
      ⟨[cexRow]⟩ ⟨[cexRow]⟩).2.2.2.2.1 (by decide)).1⟩

/-- C8: the row-level policies allow select, insert, update and delete
on a transaction row exactly for the authenticated owner; every row the
application's fetch returns belongs to the session user; and no
application-issued mutation touches any row owned by another user. -/
theorem transactions_owner_only (op : SqlOp) (auth : String) (r : TxRecord)
    (uid v : String) (m : Mutation) (db : Backend) :
    (rlsAllows op auth r r = true ↔ auth = r.user_id) ∧
    (r ∈ fetchTransactions uid db → r.user_id = uid) ∧
    (v ≠ uid →
      (applyMutation uid m db).rows.filter (fun q => decide (q.user_id = v))
        = db.rows.filter (fun q => decide (q.user_id = v))) :=
  ⟨rls_owner_iff op auth r,
   fetch_owner uid db r,
   mutation_untouched uid v m db⟩

/-- C8 witness: user `u1` may read their own row, a fetch for `u1`
returns only `u1` rows, and deleting as `u1` leaves `u2` rows alone. -/
theorem transactions_owner_only_witness :
    (rlsAllows .select "u1" cexRow cexRow = true ↔ "u1" = cexRow.user_id) ∧
    (cexRow ∈ fetchTransactions "u1" ⟨[cexRow]⟩ → cexRow.user_id = "u1") ∧
    ((applyMutation "u1" (.del "t1") ⟨[cexRow]⟩).rows.filter
        (fun q => decide (q.user_id = "u2"))
      = ([cexRow] : List TxRecord).filter (fun q => decide (q.user_id = "u2"))) :=
  ⟨(transactions_owner_only .select "u1" cexRow "u1" "u2" (.del "t1")
      ⟨[cexRow]⟩).1,
   (transactions_owner_only .select "u1" cexRow "u1" "u2" (.del "t1")
      ⟨[cexRow]⟩).2.1,
   (transactions_owner_only .select "u1" cexRow "u1" "u2" (.del "t1")
      ⟨[cexRow]⟩).2.2 (by decide)⟩

/-- C9: marking a subscription as paid sends an expense transaction with
the subscription's amount and category, a description naming the
subscription, and today's date; the insert precedes the billing-date
update, so when the insert fails no update is issued, and when it
succeeds the update carries the 30-day-advanced billing date. -/
theorem markAsPaid_insert_then_advance (uid : String) (insertFails : Bool)
    (today : CalDate) (sub : Subscription) :
    (handleMarkAsPaid (some uid) insertFails today sub).insertSent
      = some ⟨sub.amount, .expense, sub.category,
          "Subscription payment for " ++ sub.name, today, uid⟩ ∧
    (insertFails = true →
      (handleMarkAsPaid (some uid) insertFails today sub).updateSent = none) ∧
    (insertFails = false →
      (handleMarkAsPaid (some uid) insertFails today sub).updateSent
        = some (markPaidNextBillingDate sub.billing_date)) := by
  cases insertFails <;>
    exact ⟨rfl, fun h => by simp_all [handleMarkAsPaid], fun h => by
      simp_all [handleMarkAsPaid]⟩

/-- C9 witness: marking the concrete subscription as paid with a failed
insert sends the expected expense row and no billing update. -/
theorem markAsPaid_insert_then_advance_witness :
    (handleMarkAsPaid (some "u1") true ⟨4, 2, 1⟩ subNetflix).insertSent
      = some ⟨subNetflix.amount, .expense, subNetflix.category,
          "Subscription payment for " ++ subNetflix.name, ⟨4, 2, 1⟩, "u1"⟩ ∧
    (handleMarkAsPaid (some "u1") true ⟨4, 2, 1⟩ subNetflix).updateSent = none :=
  ⟨(markAsPaid_insert_then_advance "u1" true ⟨4, 2, 1⟩ subNetflix).1,
   (markAsPaid_insert_then_advance "u1" true ⟨4, 2, 1⟩ subNetflix).2.1 rfl⟩

/-- C10: a fetched subscription is in the Due Soon list exactly when its
billing date lies in the inclusive interval from the start of today to
one week later, is in the main list exactly otherwise, never in both,
and always in one of the two. -/
theorem subscriptions_partition (today : CalDate) (subs : List Subscription)
    (s : Subscription) :
    (s ∈ getDueSoonSubscriptions today subs ↔
      s ∈ subs ∧ dueSoonPred today s = true) ∧
    (s ∈ mainListSubscriptions today subs ↔
      s ∈ subs ∧ ¬ dueSoonPred today s = true) ∧
    ¬ (s ∈ getDueSoonSubscriptions today subs ∧
        s ∈ mainListSubscriptions today subs) ∧
    (s ∈ subs →
      s ∈ getDueSoonSubscriptions today subs ∨
        s ∈ mainListSubscriptions today subs) := by
  simp only [getDueSoonSubscriptions, mainListSubscriptions, List.mem_filter,
    decide_eq_true_eq]
  refine ⟨by tauto, by tauto, by tauto, by tauto⟩

/-- C10 witness: on year-4 February 1, the subscription billed
February 3 is due soon and the one billed January 31 (already past) sits
in the main list; neither is in both sections. -/
theorem subscriptions_partition_witness :
    subSpotify ∈ getDueSoonSubscriptions ⟨4, 2, 1⟩ [subNetflix, subSpotify] ∧
    subNetflix ∈ mainListSubscriptions ⟨4, 2, 1⟩ [subNetflix, subSpotify] ∧
    ¬ (subSpotify ∈ getDueSoonSubscriptions ⟨4, 2, 1⟩ [subNetflix, subSpotify] ∧
        subSpotify ∈ mainListSubscriptions ⟨4, 2, 1⟩ [subNetflix, subSpotify]) :=
  ⟨(subscriptions_partition ⟨4, 2, 1⟩ [subNetflix, subSpotify] subSpotify).1.mpr
      (by decide),
   (subscriptions_partition ⟨4, 2, 1⟩ [subNetflix, subSpotify] subNetflix).2.1.mpr
      (by decide),
   (subscriptions_partition ⟨4, 2, 1⟩ [subNetflix, subSpotify] subSpotify).2.2.1⟩

end DhanMantri
